import Mathlib

/-!
Shallow embedding of `src/Modrinth.js` (class `ModrinthAPI` of CubicLauncher/ModrinthLib).

The remote registry (the Modrinth HTTP API) is modelled as a record of response
functions; an `Option` result models a transport/HTTP failure of the call
(`axios` throwing).  The filesystem regions the class touches — the manifest
file at `this.modsDataFile`, the caller's mods folder, and the staging
directory `path.join(dirname, 'downloads')` — are modelled explicitly in a
state record together with a log of mutating file operations.  Every method of
the class becomes a function threading that state; a thrown JS error becomes
`Except.error`.  The streaming artifact transfer has a third outcome besides
success and a thrown error: when the response stream errors mid-pipe, `pipe`
forwards no error to the file writer, so the promise `downloadMod` returns
never settles.  The transfer pipeline therefore returns
`Option (Except JsError Unit)`, where `none` means the call hangs forever —
and every caller that awaits it hangs with it, returning `none` unchanged.
JSON objects (manifest, directories) are association lists with JS-object
write semantics: assignment overwrites the entry in place, preserving order,
and appends when the key is new.
-/

namespace ModrinthLib

/-- A search hit from `GET /v2/search` (`response.data.hits`); only the
`project_id` field is read by the class. -/
structure ModSummary where
  project_id : String
deriving Repr, DecidableEq

/-- A version object from `GET /v2/project/{id}/version`. -/
structure ModVersion where
  id : String
  version_number : String
  game_versions : List String
  loaders : List String
deriving Repr, DecidableEq

/-- An artifact descriptor inside a version object's `files` array. -/
structure ArtifactFile where
  url : String
  filename : String
deriving Repr, DecidableEq

/-- The body of `GET /v2/version/{id}`; only `files` is read. -/
structure VersionData where
  files : List ArtifactFile
deriving Repr, DecidableEq

/-- The outcome of the streaming artifact GET (src/Modrinth.js:261-272).
`failed`: the request itself rejects (connection refused, HTTP error status)
— `await axios(...)` throws before any body byte, the `try/catch` rethrows.
`interrupted partialBody`: the request succeeds but the response stream errors
mid-body after `partialBody` was piped into the file; `pipe` forwards no
readable-side error to the writer, so neither the writer's `finish` nor its
`error` event ever fires and the promise returned by `downloadMod` never
settles.  `full content`: the stream ends normally with the whole body. -/
inductive FetchOutcome where
  | failed
  | interrupted (partialBody : String)
  | full (content : String)
deriving Repr, DecidableEq

/-- The remote registry: one response function per endpoint the class calls.
`none` models the HTTP request failing (`axios` throws). -/
structure Registry where
  searchHits : String → Option (List ModSummary)
  projectVersions : String → Option (List ModVersion)
  versionData : String → Option VersionData
  fetchUrl : String → FetchOutcome

/-- JS errors thrown by the class, by site. -/
inductive JsError where
  /-- `Mod ${modName} not found.` -/
  | notFound (modName : String)
  /-- `No compatible versions of ... found for ... and loader ...` -/
  | noCompatibleVersion (modName gameVersionOrModVersion loader : String)
  /-- an `axios` transport/HTTP failure, rethrown unchanged -/
  | httpError
  /-- a TypeError from reading a property of `undefined` (e.g. `files[0].url`
  on an empty `files` array) -/
  | typeError
  /-- `fs.renameSync` failing (target mods folder not writable) -/
  | installError
  /-- the write stream erroring (e.g. staging directory missing) -/
  | transferError
deriving Repr, DecidableEq

/-- A mutating filesystem operation, as logged by the model. -/
inductive FileOp where
  | unlinkFile (p : String)
  | mkdirOp (p : String)
  | writeFile (p : String)
  | renameFile (src dst : String)
deriving Repr, DecidableEq

/-- A directory or a JSON object: an association list from name to
content/value, with JS write semantics (see `setEntry`). -/
abbrev Entries := List (String × String)

/-- The world state threaded through the class's methods.  `manifestFile` is
the parsed content of the file at `this.modsDataFile` (`none`: the file does
not exist).  `modsFolder` is the caller's mods directory, `downloadDir` the
staging directory (`none`: not yet created).  `targetWritable` models whether
`fs.renameSync` into the mods folder succeeds.  `ops` logs every mutating
file operation performed. -/
structure St where
  registry : Registry
  modsDataFile : String
  manifestFile : Option Entries
  modsFolder : Entries
  downloadDir : Option Entries
  targetWritable : Bool
  ops : List FileOp

/-- JS object assignment `obj[k] = v`: overwrite the entry in place if the key
exists, else append. -/
def setEntry : Entries → String → String → Entries
  | [], k, v => [(k, v)]
  | (k', v') :: rest, k, v =>
    if k' == k then (k', v) :: rest else (k', v') :: setEntry rest k v

/-- JS object read `obj[k]`: the value at the first matching key. -/
def lookupEntry : Entries → String → Option String
  | [], _ => none
  | (k', v') :: rest, k => if k' == k then some v' else lookupEntry rest k

/-- `isSpecificModVersion(version)` — `version.includes('-')`
(src/Modrinth.js:185-187).  Since the needle is the single character `-`,
JS substring containment is membership of that character among the string's
characters. -/
def isSpecificModVersion (version : String) : Bool :=
  version.data.contains '-'

/-- The compatibility filter inside `getmod` (src/Modrinth.js:68-76): exact
`version_number` match when the query contains a hyphen, otherwise
game-version and loader membership. -/
def filterCompatible (versions : List ModVersion)
    (gameVersionOrModVersion loader : String) : List ModVersion :=
  if isSpecificModVersion gameVersionOrModVersion then
    versions.filter (fun version => version.version_number == gameVersionOrModVersion)
  else
    versions.filter (fun version =>
      version.game_versions.contains gameVersionOrModVersion &&
      version.loaders.contains loader)

/-- `getmod(modName, gameVersionOrModVersion, loader)` (src/Modrinth.js:58-86).
Reads only the registry, performs no file operation. -/
def getmod (reg : Registry) (modName gameVersionOrModVersion loader : String) :
    Except JsError (List ModVersion) :=
  match reg.searchHits modName with
  | none => .error .httpError
  | some mods =>
    match mods with
    | [] => .error (.notFound modName)
    | mod :: _ =>
      match reg.projectVersions mod.project_id with
      | none => .error .httpError
      | some versions =>
        if (filterCompatible versions gameVersionOrModVersion loader).length == 0 then
          .error (.noCompatibleVersion modName gameVersionOrModVersion loader)
        else
          .ok (filterCompatible versions gameVersionOrModVersion loader)

/-- `loadModsData()` (src/Modrinth.js:172-178): parse the manifest file if it
exists, else the empty object. -/
def loadModsData (st : St) : Entries :=
  match st.manifestFile with
  | some data => data
  | none => []

/-- `saveModInfo(modName, version)` (src/Modrinth.js:162-166): read-modify-write
of the manifest file. -/
def saveModInfo (st : St) (modName version : String) : St :=
  { st with
    manifestFile := some (setEntry (loadModsData st) modName version)
    ops := st.ops ++ [.writeFile st.modsDataFile] }

/-- `deleteOldMod(modName, minecraftModsFolder)` (src/Modrinth.js:114-124):
look the mod name up among the manifest KEYS and unlink the file of that name
from the mods folder if it exists. -/
def deleteOldMod (st : St) (modName minecraftModsFolder : String) : St :=
  match ((loadModsData st).map Prod.fst).find? (fun key => key == modName) with
  | none => st
  | some oldModFileName =>
    if (st.modsFolder.map Prod.fst).contains oldModFileName then
      { st with
        modsFolder := st.modsFolder.filter (fun f => !(f.1 == oldModFileName))
        ops := st.ops ++ [.unlinkFile (minecraftModsFolder ++ "/" ++ oldModFileName)] }
    else st

/-- The staging directory `path.join(dirname, 'downloads')`
(src/Modrinth.js:231). -/
def downloadDirPath : String := "downloads"

/-- The `existsSync`/`mkdirSync` head of `installMod` (src/Modrinth.js:232-234). -/
def ensureDownloadDir (st : St) : St :=
  match st.downloadDir with
  | some _ => st
  | none =>
    { st with
      downloadDir := some []
      ops := st.ops ++ [.mkdirOp downloadDirPath] }

/-- `downloadMod(versionId, downloadDir)` (src/Modrinth.js:253-276): re-fetch
the version's file descriptors, open a write stream at the declared filename
(which creates the file), pipe the artifact body into it.  Result `none`
models the returned promise never settling: on a mid-stream response error
(`FetchOutcome.interrupted`) neither `writer.on('finish')` nor
`writer.on('error')` ever fires, and only the partial body remains staged. -/
def downloadMod (st : St) (versionId : String) :
    Option (Except JsError Unit) × St :=
  match st.registry.versionData versionId with
  | none => (some (.error .httpError), st)
  | some versionData =>
    match versionData.files with
    | [] => (some (.error .typeError), st)
    | file :: _ =>
      match st.downloadDir with
      | none => (some (.error .transferError), st)
      | some files =>
        match st.registry.fetchUrl file.url with
        | .failed =>
          (some (.error .httpError),
            { st with
              downloadDir := some (setEntry files file.filename "")
              ops := st.ops ++ [.writeFile (downloadDirPath ++ "/" ++ file.filename)] })
        | .interrupted partialBody =>
          (none,
            { st with
              downloadDir := some (setEntry files file.filename partialBody)
              ops := st.ops ++ [.writeFile (downloadDirPath ++ "/" ++ file.filename)] })
        | .full content =>
          (some (.ok ()),
            { st with
              downloadDir := some (setEntry files file.filename content)
              ops := st.ops ++ [.writeFile (downloadDirPath ++ "/" ++ file.filename)] })

/-- Move every staged file into the destination directory, overwriting
same-named files (`files.forEach(... renameSync ...)`). -/
def moveFiles (dst : Entries) : Entries → Entries
  | [] => dst
  | (n, c) :: rest => moveFiles (setEntry dst n c) rest

/-- The contents of the staging directory as seen by `readdirSync`
(src/Modrinth.js:238). -/
def stagedFiles (st : St) : Entries :=
  match st.downloadDir with
  | some fs => fs
  | none => []

/-- The rename loop of `installMod` (src/Modrinth.js:238-243): move every
staged file into the mods folder, overwriting same-named files.  When the
target is not writable the first `renameSync` throws; with no staged files the
`forEach` body never runs, so nothing throws. -/
def moveStaged (st : St) (minecraftModsFolder : String) :
    Except JsError Unit × St :=
  if st.targetWritable then
    (.ok (),
      { st with
        downloadDir := some []
        modsFolder := moveFiles st.modsFolder (stagedFiles st)
        ops := st.ops ++ (stagedFiles st).map (fun f =>
          FileOp.renameFile (downloadDirPath ++ "/" ++ f.1)
            (minecraftModsFolder ++ "/" ++ f.1)) })
  else
    match stagedFiles st with
    | [] => (.ok (), st)
    | _ :: _ => (.error .installError, st)

/-- `installMod(versionId, minecraftModsFolder)` (src/Modrinth.js:230-244):
ensure the staging directory, download into it, then rename every staged file
into the mods folder.  Awaiting a never-settling `downloadMod` promise hangs
this call as well (`none` propagates). -/
def installMod (st : St) (versionId minecraftModsFolder : String) :
    Option (Except JsError Unit) × St :=
  match downloadMod (ensureDownloadDir st) versionId with
  | (none, st1) => (none, st1)
  | (some (.error e), st1) => (some (.error e), st1)
  | (some (.ok _), st1) =>
    match moveStaged st1 minecraftModsFolder with
    | (r, st2) => (some r, st2)

/-- `download(modName, gameVersionOrModVersion, loader, minecraftModsFolder)`
(src/Modrinth.js:97-107): resolve, install the first compatible version, then
record it in the manifest. -/
def download (st : St) (modName gameVersionOrModVersion loader minecraftModsFolder : String) :
    Option (Except JsError Unit) × St :=
  match getmod st.registry modName gameVersionOrModVersion loader with
  | .error e => (some (.error e), st)
  | .ok versions =>
    match versions with
    | [] => (some (.error .typeError), st)
    | latestVersion :: _ =>
      match installMod st latestVersion.id minecraftModsFolder with
      | (none, st1) => (none, st1)
      | (some (.error e), st1) => (some (.error e), st1)
      | (some (.ok _), st1) =>
        (some (.ok ()), saveModInfo st1 modName latestVersion.version_number)

/-- The `for (const modName in modsData)` loop of `update`
(src/Modrinth.js:141-151), iterating over the entries loaded at entry. -/
def updateLoop (st : St) (entries : Entries) (minecraftModsFolder gameVersion : String) :
    Option (Except JsError Unit) × St :=
  match entries with
  | [] => (some (.ok ()), st)
  | (modName, installedVersion) :: rest =>
    match getmod st.registry modName gameVersion "forge" with
    | .error e => (some (.error e), st)
    | .ok versions =>
      match versions with
      | [] => (some (.error .typeError), st)
      | latestVersion :: _ =>
        if latestVersion.version_number != installedVersion then
          match installMod (deleteOldMod st modName minecraftModsFolder)
              latestVersion.id minecraftModsFolder with
          | (none, st2) => (none, st2)
          | (some (.error e), st2) => (some (.error e), st2)
          | (some (.ok _), st2) =>
            updateLoop (saveModInfo st2 modName latestVersion.version_number)
              rest minecraftModsFolder gameVersion
        else
          updateLoop st rest minecraftModsFolder gameVersion

/-- `update(minecraftModsFolder, gameVersion)` (src/Modrinth.js:134-155). -/
def update (st : St) (minecraftModsFolder gameVersion : String) :
    Option (Except JsError Unit) × St :=
  if (loadModsData st).length == 0 then (some (.ok ()), st)
  else updateLoop st (loadModsData st) minecraftModsFolder gameVersion

/-- The version number `update` would record for a mod: the `version_number`
of the first element of a successful `getmod` with loader `forge`. -/
def resolvedVn (reg : Registry) (gameVersion modName : String) : Option String :=
  match getmod reg modName gameVersion "forge" with
  | .ok (latest :: _) => some latest.version_number
  | _ => none

/-- One public mutating call on a `ModrinthAPI` instance. -/
inductive COp where
  | opDownload (modName gv loader folder : String)
  | opUpdate (folder gv : String)
  | opDeleteOldMod (modName folder : String)
  | opSaveModInfo (modName version : String)
  | opInstallMod (versionId folder : String)
  | opDownloadMod (versionId : String)
deriving Repr

/-- The state transition of one call (result value discarded). -/
def step (st : St) : COp → St
  | .opDownload m g l f => (download st m g l f).2
  | .opUpdate f g => (update st f g).2
  | .opDeleteOldMod m f => deleteOldMod st m f
  | .opSaveModInfo m v => saveModInfo st m v
  | .opInstallMod i f => (installMod st i f).2
  | .opDownloadMod i => (downloadMod st i).2

/-- Run a sequence of calls. -/
def run (st : St) : List COp → St
  | [] => st
  | op :: rest => run (step st op) rest

/-- The key set of the manifest, as a list. -/
def manifestKeys (st : St) : List String :=
  (loadModsData st).map Prod.fst

/-! ### Concrete inputs for witness theorems -/

/-- A registry-shaped fixture: one searchable project with one version and one
artifact, plus a query with zero hits. -/
def demoVersion : ModVersion where
  id := "vid1"
  version_number := "1.0.0"
  game_versions := ["1.18.2"]
  loaders := ["forge"]

/-- A version whose version number carries a hyphen. -/
def demoHyphenVersion : ModVersion where
  id := "vid2"
  version_number := "1.0-b"
  game_versions := ["1.18.2"]
  loaders := ["forge"]

def demoRegistry : Registry where
  searchHits := fun q =>
    if q == "create" then some [{ project_id := "proj1" }]
    else if q == "totallyMissingMod123" then some []
    else none
  projectVersions := fun p =>
    if p == "proj1" then some [demoVersion] else none
  versionData := fun i =>
    if i == "vid1" then some { files := [{ url := "u1", filename := "create.jar" }] }
    else none
  fetchUrl := fun u => if u == "u1" then .full "JARBYTES" else .failed

def demoSt : St where
  registry := demoRegistry
  modsDataFile := "./mods.json"
  manifestFile := some [("create", "1.0.0")]
  modsFolder := [("create", "OLDBYTES")]
  downloadDir := none
  targetWritable := true
  ops := []

/-- `demoSt` with a non-writable target mods folder. -/
def demoStRO : St := { demoSt with targetWritable := false }

/-- `demoStRO` after the staging directory was created and the demo artifact
was fully downloaded into it. -/
def demoStDl : St :=
  { demoStRO with
    downloadDir := some [("create.jar", "JARBYTES")]
    ops := [.mkdirOp "downloads", .writeFile "downloads/create.jar"] }

/-- A registry whose artifact stream drops mid-body: only `"JARB"` of the
artifact arrives before the response stream errors. -/
def demoRegistryInt : Registry :=
  { demoRegistry with
    fetchUrl := fun u => if u == "u1" then .interrupted "JARB" else .failed }

/-- `demoSt` pointed at the interrupting registry. -/
def demoStInt : St := { demoSt with registry := demoRegistryInt }

/-! ### Association-list lemmas (JS object semantics) -/

theorem lookupEntry_setEntry_self (m : Entries) (k v : String) :
    lookupEntry (setEntry m k v) k = some v := by
  induction m with
  | nil => simp [setEntry, lookupEntry]
  | cons hd tl ih =>
    obtain ⟨k', v'⟩ := hd
    by_cases h : k' = k
    · simp [setEntry, lookupEntry, h]
    · simp [setEntry, lookupEntry, h, ih]

theorem lookupEntry_setEntry_ne (m : Entries) (k v n : String) (h : n ≠ k) :
    lookupEntry (setEntry m k v) n = lookupEntry m n := by
  induction m with
  | nil => simp [setEntry, lookupEntry, Ne.symm h]
  | cons hd tl ih =>
    obtain ⟨k', v'⟩ := hd
    by_cases hk : k' = k
    · subst hk
      simp only [setEntry, beq_self_eq_true, if_true, lookupEntry]
      by_cases hn : k' = n
      · exact absurd hn.symm h
      · simp [hn]
    · simp only [setEntry, beq_iff_eq, hk, if_false, lookupEntry]
      by_cases hn : k' = n
      · simp [hn]
      · simp [hn, ih]

theorem keys_setEntry_of_lookup (m : Entries) (k v w : String)
    (h : lookupEntry m k = some w) :
    (setEntry m k v).map Prod.fst = m.map Prod.fst := by
  induction m with
  | nil => simp [lookupEntry] at h
  | cons hd tl ih =>
    obtain ⟨k', v'⟩ := hd
    by_cases hk : k' = k
    · simp [setEntry, hk]
    · simp only [lookupEntry, beq_iff_eq, hk, if_false] at h
      simp [setEntry, hk, ih h]

theorem mem_keys_setEntry (m : Entries) (k v n : String)
    (h : n ∈ m.map Prod.fst) :
    n ∈ (setEntry m k v).map Prod.fst := by
  induction m with
  | nil => simp at h
  | cons hd tl ih =>
    obtain ⟨k', v'⟩ := hd
    simp only [List.map_cons, List.mem_cons] at h
    by_cases hk : k' = k
    · simpa [setEntry, hk] using h
    · rcases h with h | h
      · simp [setEntry, hk, h]
      · simp [setEntry, hk, ih h]

theorem lookupEntry_eq_some_of_mem (m : Entries) (k v : String)
    (hnd : (m.map Prod.fst).Nodup) (h : (k, v) ∈ m) :
    lookupEntry m k = some v := by
  induction m with
  | nil => simp at h
  | cons hd tl ih =>
    obtain ⟨k', v'⟩ := hd
    simp only [List.map_cons, List.nodup_cons] at hnd
    rcases List.mem_cons.mp h with h | h
    · obtain ⟨h1, h2⟩ := Prod.mk.injEq .. ▸ h.symm
      simp [lookupEntry, h1.symm, h2]
    · have hne : k' ≠ k := by
        intro heq
        exact hnd.1 (heq ▸ (List.mem_map.mpr ⟨(k, v), h, rfl⟩))
      simp [lookupEntry, hne, ih hnd.2 h]

theorem mem_of_lookupEntry_eq_some (m : Entries) (k v : String)
    (h : lookupEntry m k = some v) : (k, v) ∈ m := by
  induction m with
  | nil => simp [lookupEntry] at h
  | cons hd tl ih =>
    obtain ⟨k', v'⟩ := hd
    by_cases hk : k' = k
    · simp only [lookupEntry, hk, beq_self_eq_true, if_true, Option.some.injEq] at h
      simp [hk, h]
    · simp only [lookupEntry, beq_iff_eq, hk, if_false] at h
      exact List.mem_cons_of_mem _ (ih h)

/-! ### Frame lemmas: which state fields each operation leaves untouched -/

theorem setEntry_ne_nil (m : Entries) (k v : String) : setEntry m k v ≠ [] := by
  cases m with
  | nil => simp [setEntry]
  | cons hd tl =>
    obtain ⟨k', v'⟩ := hd
    by_cases h : k' = k <;> simp [setEntry, h]

theorem ensureDownloadDir_frame (st : St) :
    (ensureDownloadDir st).registry = st.registry ∧
    (ensureDownloadDir st).manifestFile = st.manifestFile ∧
    (ensureDownloadDir st).modsFolder = st.modsFolder ∧
    (ensureDownloadDir st).targetWritable = st.targetWritable ∧
    (ensureDownloadDir st).modsDataFile = st.modsDataFile := by
  cases h : st.downloadDir <;> simp [ensureDownloadDir, h]

theorem ensureDownloadDir_isSome (st : St) :
    (ensureDownloadDir st).downloadDir.isSome = true := by
  cases h : st.downloadDir <;> simp [ensureDownloadDir, h]

theorem downloadMod_frame (st st' : St) (versionId : String)
    (r : Option (Except JsError Unit)) (h : downloadMod st versionId = (r, st')) :
    st'.registry = st.registry ∧
    st'.manifestFile = st.manifestFile ∧
    st'.modsFolder = st.modsFolder ∧
    st'.targetWritable = st.targetWritable ∧
    st'.modsDataFile = st.modsDataFile := by
  unfold downloadMod at h
  split at h
  · cases h; exact ⟨rfl, rfl, rfl, rfl, rfl⟩
  · split at h
    · cases h; exact ⟨rfl, rfl, rfl, rfl, rfl⟩
    · split at h
      · cases h; exact ⟨rfl, rfl, rfl, rfl, rfl⟩
      · split at h
        · cases h; exact ⟨rfl, rfl, rfl, rfl, rfl⟩
        · cases h; exact ⟨rfl, rfl, rfl, rfl, rfl⟩
        · cases h; exact ⟨rfl, rfl, rfl, rfl, rfl⟩

theorem downloadMod_ok_downloadDir (st st' : St) (versionId : String)
    (h : downloadMod st versionId = (some (.ok ()), st')) :
    ∃ (d : Entries) (file : ArtifactFile) (content : String),
      st.downloadDir = some d ∧
      st'.downloadDir = some (setEntry d file.filename content) := by
  unfold downloadMod at h
  cases hv : st.registry.versionData versionId with
  | none => simp [hv] at h
  | some versionData =>
    simp only [hv] at h
    cases hf : versionData.files with
    | nil => simp [hf] at h
    | cons file frest =>
      simp only [hf] at h
      cases hd : st.downloadDir with
      | none => simp [hd] at h
      | some d =>
        simp only [hd] at h
        cases hc : st.registry.fetchUrl file.url with
        | failed => simp [hc] at h
        | interrupted partialBody => simp [hc] at h
        | full content =>
          simp only [hc] at h
          cases h
          exact ⟨d, file, content, rfl, rfl⟩

theorem moveStaged_frame (st st' : St) (folder : String)
    (r : Except JsError Unit) (h : moveStaged st folder = (r, st')) :
    st'.registry = st.registry ∧
    st'.manifestFile = st.manifestFile ∧
    st'.targetWritable = st.targetWritable ∧
    st'.modsDataFile = st.modsDataFile := by
  unfold moveStaged at h
  split at h
  · cases h; exact ⟨rfl, rfl, rfl, rfl⟩
  · split at h
    · cases h; exact ⟨rfl, rfl, rfl, rfl⟩
    · cases h; exact ⟨rfl, rfl, rfl, rfl⟩

theorem installMod_frame (st st' : St) (versionId folder : String)
    (r : Option (Except JsError Unit)) (h : installMod st versionId folder = (r, st')) :
    st'.registry = st.registry ∧
    st'.manifestFile = st.manifestFile ∧
    st'.targetWritable = st.targetWritable ∧
    st'.modsDataFile = st.modsDataFile := by
  obtain ⟨h1, h2, _h3, h4, h5⟩ := ensureDownloadDir_frame st
  unfold installMod at h
  cases hdl : downloadMod (ensureDownloadDir st) versionId with
  | mk r1 st1 =>
  rw [hdl] at h
  obtain ⟨g1, g2, _g3, g4, g5⟩ := downloadMod_frame _ _ _ _ hdl
  cases r1 with
  | none =>
    cases h
    exact ⟨g1.trans h1, g2.trans h2, g4.trans h4, g5.trans h5⟩
  | some r1 =>
    cases r1 with
    | error e =>
      cases h
      exact ⟨g1.trans h1, g2.trans h2, g4.trans h4, g5.trans h5⟩
    | ok u =>
      cases hmv : moveStaged st1 folder with
      | mk r2 st2 =>
        simp only [hmv] at h
        cases h
        obtain ⟨m1, m2, m4, m5⟩ := moveStaged_frame _ _ _ _ hmv
        exact ⟨m1.trans (g1.trans h1), m2.trans (g2.trans h2),
          m4.trans (g4.trans h4), m5.trans (g5.trans h5)⟩

theorem saveModInfo_frame (st : St) (modName version : String) :
    (saveModInfo st modName version).registry = st.registry ∧
    (saveModInfo st modName version).modsFolder = st.modsFolder ∧
    (saveModInfo st modName version).downloadDir = st.downloadDir ∧
    (saveModInfo st modName version).targetWritable = st.targetWritable ∧
    (saveModInfo st modName version).modsDataFile = st.modsDataFile :=
  ⟨rfl, rfl, rfl, rfl, rfl⟩

theorem deleteOldMod_frame (st : St) (modName folder : String) :
    (deleteOldMod st modName folder).registry = st.registry ∧
    (deleteOldMod st modName folder).manifestFile = st.manifestFile ∧
    (deleteOldMod st modName folder).downloadDir = st.downloadDir ∧
    (deleteOldMod st modName folder).targetWritable = st.targetWritable ∧
    (deleteOldMod st modName folder).modsDataFile = st.modsDataFile := by
  unfold deleteOldMod
  split
  · exact ⟨rfl, rfl, rfl, rfl, rfl⟩
  · split
    · exact ⟨rfl, rfl, rfl, rfl, rfl⟩
    · exact ⟨rfl, rfl, rfl, rfl, rfl⟩

/-! ### Manifest-key monotonicity through every mutating operation -/

theorem loadModsData_congr (st st' : St) (h : st'.manifestFile = st.manifestFile) :
    loadModsData st' = loadModsData st := by
  unfold loadModsData
  rw [h]

theorem manifestKeys_congr (st st' : St) (h : st'.manifestFile = st.manifestFile) :
    manifestKeys st' = manifestKeys st := by
  unfold manifestKeys
  rw [loadModsData_congr st st' h]

theorem manifestKeys_saveModInfo (st : St) (m v n : String)
    (h : n ∈ manifestKeys st) : n ∈ manifestKeys (saveModInfo st m v) := by
  show n ∈ (setEntry (loadModsData st) m v).map Prod.fst
  exact mem_keys_setEntry _ _ _ _ h

theorem download_keys_mono (st : St) (modName gv loader folder n : String)
    (h : n ∈ manifestKeys st) :
    n ∈ manifestKeys (download st modName gv loader folder).2 := by
  unfold download
  cases hg : getmod st.registry modName gv loader with
  | error e => simpa using h
  | ok versions =>
    cases versions with
    | nil => simpa using h
    | cons latest vrest =>
      cases hi : installMod st latest.id folder with
      | mk r1 st1 =>
        have hm : manifestKeys st1 = manifestKeys st :=
          manifestKeys_congr st st1 (installMod_frame st st1 latest.id folder r1 hi).2.1
        cases r1 with
        | none =>
          simp only [hi]
          rw [hm]
          exact h
        | some r1 =>
          cases r1 with
          | error e =>
            simp only [hi]
            rw [hm]
            exact h
          | ok u =>
            simp only [hi]
            exact manifestKeys_saveModInfo st1 modName latest.version_number n
              (by rw [hm]; exact h)

theorem updateLoop_keys_mono (entries : Entries) (st : St)
    (folder gv n : String) (h : n ∈ manifestKeys st) :
    n ∈ manifestKeys (updateLoop st entries folder gv).2 := by
  induction entries generalizing st with
  | nil => simpa [updateLoop] using h
  | cons p rest ih =>
    obtain ⟨modName, installedVersion⟩ := p
    unfold updateLoop
    cases hg : getmod st.registry modName gv "forge" with
    | error e => simpa using h
    | ok versions =>
      cases versions with
      | nil => simpa using h
      | cons latest vrest =>
        simp only []
        split
        · cases hi : installMod (deleteOldMod st modName folder)
              latest.id folder with
          | mk r1 st2 =>
            have hd : manifestKeys (deleteOldMod st modName folder) = manifestKeys st :=
              manifestKeys_congr st _ (deleteOldMod_frame st modName folder).2.1
            have hm : manifestKeys st2 = manifestKeys st := by
              rw [manifestKeys_congr _ st2
                (installMod_frame _ st2 latest.id folder r1 hi).2.1, hd]
            cases r1 with
            | none =>
              simp only [hi]
              rw [hm]
              exact h
            | some r1 =>
              cases r1 with
              | error e =>
                simp only [hi]
                rw [hm]
                exact h
              | ok u =>
                simp only [hi]
                exact ih _ (manifestKeys_saveModInfo st2 modName
                  latest.version_number n (by rw [hm]; exact h))
        · exact ih st h

theorem update_keys_mono (st : St) (folder gv n : String)
    (h : n ∈ manifestKeys st) :
    n ∈ manifestKeys (update st folder gv).2 := by
  unfold update
  split
  · exact h
  · exact updateLoop_keys_mono (loadModsData st) st folder gv n h

theorem step_keys_mono (st : St) (op : COp) (n : String)
    (h : n ∈ manifestKeys st) : n ∈ manifestKeys (step st op) := by
  cases op with
  | opDownload m g l f => exact download_keys_mono st m g l f n h
  | opUpdate f g => exact update_keys_mono st f g n h
  | opDeleteOldMod m f =>
    show n ∈ manifestKeys (deleteOldMod st m f)
    rw [show manifestKeys (deleteOldMod st m f) = manifestKeys st from
      manifestKeys_congr st _ (deleteOldMod_frame st m f).2.1]
    exact h
  | opSaveModInfo m v => exact manifestKeys_saveModInfo st m v n h
  | opInstallMod i f =>
    cases hi : installMod st i f with
    | mk r1 st1 =>
      show n ∈ manifestKeys (installMod st i f).2
      rw [hi]
      rw [show manifestKeys st1 = manifestKeys st from
        manifestKeys_congr st st1 (installMod_frame st st1 i f r1 hi).2.1]
      exact h
  | opDownloadMod i =>
    cases hi : downloadMod st i with
    | mk r1 st1 =>
      show n ∈ manifestKeys (downloadMod st i).2
      rw [hi]
      rw [show manifestKeys st1 = manifestKeys st from
        manifestKeys_congr st st1 (downloadMod_frame st st1 i r1 hi).2.1]
      exact h

theorem run_keys_mono (ops : List COp) (st : St) (n : String)
    (h : n ∈ manifestKeys st) : n ∈ manifestKeys (run st ops) := by
  induction ops generalizing st with
  | nil => exact h
  | cons op rest ih => exact ih (step st op) (step_keys_mono st op n h)

/-! ### The update loop: success characterization and no-op runs -/

theorem resolvedVn_of_getmod (reg : Registry) (gv modName : String)
    (latest : ModVersion) (vrest : List ModVersion)
    (h : getmod reg modName gv "forge" = .ok (latest :: vrest)) :
    resolvedVn reg gv modName = some latest.version_number := by
  unfold resolvedVn
  rw [h]

/-- After a successful `updateLoop` pass over `entries` (the manifest loaded
at entry, keys unique), the registry is untouched, the manifest key list is
unchanged, every processed mod is recorded at the version `getmod` resolves
for it, and every unprocessed key keeps its value. -/
theorem updateLoop_ok_manifest (entries : Entries) (st st1 : St)
    (folder gv : String)
    (hok : updateLoop st entries folder gv = (some (.ok ()), st1))
    (hnd : (entries.map Prod.fst).Nodup)
    (hent : ∀ p ∈ entries, lookupEntry (loadModsData st) p.1 = some p.2) :
    st1.registry = st.registry ∧
    (loadModsData st1).map Prod.fst = (loadModsData st).map Prod.fst ∧
    (∀ n, n ∈ entries.map Prod.fst →
      lookupEntry (loadModsData st1) n = resolvedVn st.registry gv n) ∧
    (∀ n, n ∉ entries.map Prod.fst →
      lookupEntry (loadModsData st1) n = lookupEntry (loadModsData st) n) := by
  induction entries generalizing st with
  | nil =>
    unfold updateLoop at hok
    cases hok
    exact ⟨rfl, rfl, by simp, fun n _ => rfl⟩
  | cons p rest ih =>
    obtain ⟨modName, installedVersion⟩ := p
    simp only [List.map_cons, List.nodup_cons] at hnd
    unfold updateLoop at hok
    cases hg : getmod st.registry modName gv "forge" with
    | error e => rw [hg] at hok; simp at hok
    | ok versions =>
      cases versions with
      | nil => simp [hg] at hok
      | cons latest vrest =>
        simp only [hg] at hok
        by_cases hveq : latest.version_number = installedVersion
        · rw [if_neg (by simp [hveq])] at hok
          obtain ⟨r1, k1, b1, c1⟩ :=
            ih st hok hnd.2 (fun q hq => hent q (List.mem_cons_of_mem _ hq))
          refine ⟨r1, k1, ?_, ?_⟩
          · intro n hn
            rcases List.mem_cons.mp hn with hn | hn
            · subst hn
              rw [c1 n hnd.1, hent (n, installedVersion) (List.mem_cons_self _ _),
                resolvedVn_of_getmod _ _ _ _ _ hg, hveq]
            · exact b1 n hn
          · intro n hn
            exact c1 n (fun hmem => hn (List.mem_cons_of_mem _ hmem))
        · rw [if_pos (by simp [hveq])] at hok
          cases hi : installMod (deleteOldMod st modName folder)
              latest.id folder with
          | mk r2 st2 =>
            rw [hi] at hok
            cases r2 with
            | none => simp at hok
            | some r2 =>
            cases r2 with
            | error e => simp at hok
            | ok u =>
              have hDm : (deleteOldMod st modName folder).manifestFile =
                  st.manifestFile := (deleteOldMod_frame st modName folder).2.1
              have hIm : st2.manifestFile =
                  (deleteOldMod st modName folder).manifestFile :=
                (installMod_frame _ st2 latest.id folder _ hi).2.1
              have hload2 : loadModsData st2 = loadModsData st :=
                loadModsData_congr st st2 (hIm.trans hDm)
              have hreg2 : st2.registry = st.registry :=
                ((installMod_frame _ st2 latest.id folder _ hi).1).trans
                  (deleteOldMod_frame st modName folder).1
              have hlookup : lookupEntry (loadModsData st2) modName =
                  some installedVersion := by
                rw [hload2]
                exact hent (modName, installedVersion) (List.mem_cons_self _ _)
              have hSload : loadModsData
                  (saveModInfo st2 modName latest.version_number) =
                  setEntry (loadModsData st2) modName latest.version_number := rfl
              have hent2 : ∀ q ∈ rest, lookupEntry
                  (loadModsData (saveModInfo st2 modName latest.version_number))
                  q.1 = some q.2 := by
                intro q hq
                have hqne : q.1 ≠ modName := fun heq =>
                  hnd.1 (heq ▸ List.mem_map.mpr ⟨q, hq, rfl⟩)
                rw [hSload, lookupEntry_setEntry_ne _ _ _ _ hqne, hload2]
                exact hent q (List.mem_cons_of_mem _ hq)
              obtain ⟨r1, k1, b1, c1⟩ :=
                ih (saveModInfo st2 modName latest.version_number) hok hnd.2 hent2
              have hkeysS : (loadModsData
                  (saveModInfo st2 modName latest.version_number)).map Prod.fst =
                  (loadModsData st).map Prod.fst := by
                rw [hSload, keys_setEntry_of_lookup _ _ _ _ hlookup, hload2]
              refine ⟨r1.trans hreg2, k1.trans hkeysS, ?_, ?_⟩
              · intro n hn
                rcases List.mem_cons.mp hn with hn | hn
                · subst hn
                  rw [c1 n hnd.1, hSload, lookupEntry_setEntry_self,
                    resolvedVn_of_getmod _ _ _ _ _ hg]
                · rw [b1 n hn,
                    show (saveModInfo st2 modName latest.version_number).registry =
                      st.registry from hreg2]
              · intro n hn
                have h1 : n ≠ modName := fun heq => hn (heq ▸ List.mem_cons_self _ _)
                have h2 : n ∉ rest.map Prod.fst :=
                  fun hmem => hn (List.mem_cons_of_mem _ hmem)
                rw [c1 n h2, hSload, lookupEntry_setEntry_ne _ _ _ _ h1, hload2]

/-- When every manifest entry already records the version `getmod` resolves,
the update loop is a pure no-op: it succeeds and leaves the state untouched. -/
theorem updateLoop_noop (entries : Entries) (st : St) (folder gv : String)
    (h : ∀ p ∈ entries, resolvedVn st.registry gv p.1 = some p.2) :
    updateLoop st entries folder gv = (some (.ok ()), st) := by
  induction entries with
  | nil => rfl
  | cons p rest ih =>
    obtain ⟨modName, installedVersion⟩ := p
    have hres := h (modName, installedVersion) (List.mem_cons_self _ _)
    unfold resolvedVn at hres
    cases hg : getmod st.registry modName gv "forge" with
    | error e => rw [hg] at hres; cases hres
    | ok versions =>
      rw [hg] at hres
      cases versions with
      | nil => cases hres
      | cons latest vrest =>
        have hv : latest.version_number = installedVersion := by
          simpa using hres
        unfold updateLoop
        simp only [hg]
        rw [if_neg (by simp [hv])]
        exact ih (fun q hq => h q (List.mem_cons_of_mem _ hq))

/-! ### Claim theorems -/

/-- Claim C1: for every version list and every compatibility query string
containing a hyphen, the filtering step of `getmod` keeps only versions whose
`version_number` is string-equal to the query, regardless of their
`game_versions` or `loaders`. -/
theorem filterCompatible_hyphen_subset (versions : List ModVersion)
    (query loader : String) (v : ModVersion)
    (hq : query.data.contains '-' = true)
    (hv : v ∈ filterCompatible versions query loader) :
    v.version_number = query := by
  have hspec : isSpecificModVersion query = true := hq
  rw [filterCompatible, if_pos hspec, List.mem_filter] at hv
  exact eq_of_beq hv.2

theorem filterCompatible_hyphen_subset_witness :
    ("1.0-b".data.contains '-' = true) ∧
    demoHyphenVersion ∈ filterCompatible [demoHyphenVersion] "1.0-b" "fabric" ∧
    demoHyphenVersion.version_number = "1.0-b" :=
  ⟨by decide, by decide,
    filterCompatible_hyphen_subset [demoHyphenVersion] "1.0-b" "fabric"
      demoHyphenVersion (by decide) (by decide)⟩

/-- Claim C2: for every version list, every query without a hyphen and every
loader, the filtering step of `getmod` keeps only versions whose
`game_versions` list contains the query and whose `loaders` list contains the
loader. -/
theorem filterCompatible_no_hyphen_subset (versions : List ModVersion)
    (gameVersion loader : String) (v : ModVersion)
    (hq : gameVersion.data.contains '-' = false)
    (hv : v ∈ filterCompatible versions gameVersion loader) :
    gameVersion ∈ v.game_versions ∧ loader ∈ v.loaders := by
  have hspec : isSpecificModVersion gameVersion = false := hq
  rw [filterCompatible, if_neg (by simp [hspec]), List.mem_filter] at hv
  have h2 := hv.2
  rw [Bool.and_eq_true] at h2
  exact ⟨by simpa using h2.1, by simpa using h2.2⟩

theorem filterCompatible_no_hyphen_subset_witness :
    ("1.18.2".data.contains '-' = false) ∧
    demoVersion ∈ filterCompatible [demoVersion] "1.18.2" "forge" ∧
    ("1.18.2" ∈ demoVersion.game_versions ∧ "forge" ∈ demoVersion.loaders) :=
  ⟨by decide, by decide,
    filterCompatible_no_hyphen_subset [demoVersion] "1.18.2" "forge"
      demoVersion (by decide) (by decide)⟩

/-- Claim C9: whenever `getmod` returns rather than throws, its result is a
non-empty list, so the `versions[0]` access in `download` is defined. -/
theorem getmod_ok_nonempty (reg : Registry) (modName gv loader : String)
    (vs : List ModVersion) (h : getmod reg modName gv loader = .ok vs) :
    ∃ latest rest, vs = latest :: rest := by
  unfold getmod at h
  cases hs : reg.searchHits modName with
  | none => simp [hs] at h
  | some mods =>
    cases mods with
    | nil => simp [hs] at h
    | cons mod mrest =>
      cases hp : reg.projectVersions mod.project_id with
      | none => simp [hs, hp] at h
      | some versions =>
        simp only [hs, hp] at h
        cases hf : filterCompatible versions gv loader with
        | nil => simp [hf] at h
        | cons a t =>
          rw [hf] at h
          simp only [List.length_cons, Nat.succ_ne_zero, beq_iff_eq, if_false,
            Except.ok.injEq] at h
          exact ⟨a, t, h.symm⟩

theorem getmod_ok_nonempty_witness :
    getmod demoRegistry "create" "1.18.2" "forge" = .ok [demoVersion] ∧
    ∃ latest rest, [demoVersion] = latest :: rest :=
  ⟨rfl,
    getmod_ok_nonempty demoRegistry "create" "1.18.2" "forge" [demoVersion]
      rfl⟩

/-- Claim C8: once search has hits and the version list is fetched, `getmod`
fails with the no-compatible-version error exactly when the compatibility
filter is empty; otherwise it returns the filtered list unchanged, in registry
order. -/
theorem getmod_noCompatible_iff (reg : Registry) (modName gv loader : String)
    (mod : ModSummary) (hitsRest : List ModSummary) (versions : List ModVersion)
    (hsearch : reg.searchHits modName = some (mod :: hitsRest))
    (hvers : reg.projectVersions mod.project_id = some versions) :
    (getmod reg modName gv loader = .error (.noCompatibleVersion modName gv loader) ↔
      filterCompatible versions gv loader = []) ∧
    (filterCompatible versions gv loader ≠ [] →
      getmod reg modName gv loader = .ok (filterCompatible versions gv loader)) := by
  unfold getmod
  cases hf : filterCompatible versions gv loader with
  | nil => simp [hsearch, hvers, hf]
  | cons a t => simp [hsearch, hvers, hf]

theorem getmod_noCompatible_iff_witness :
    demoRegistry.searchHits "create" = some [{ project_id := "proj1" }] ∧
    demoRegistry.projectVersions "proj1" = some [demoVersion] ∧
    ((getmod demoRegistry "create" "9.9.9" "forge" =
        .error (.noCompatibleVersion "create" "9.9.9" "forge") ↔
      filterCompatible [demoVersion] "9.9.9" "forge" = []) ∧
    (filterCompatible [demoVersion] "9.9.9" "forge" ≠ [] →
      getmod demoRegistry "create" "9.9.9" "forge" =
        .ok (filterCompatible [demoVersion] "9.9.9" "forge"))) :=
  ⟨rfl, rfl,
    getmod_noCompatible_iff demoRegistry "create" "9.9.9" "forge"
      { project_id := "proj1" } [] [demoVersion] rfl rfl⟩

/-- Claim C3: when the registry returns zero search hits for the mod name,
`getmod` and `download` fail with the not-found error and the state — in
particular the mods folder, the manifest file and the operation log — is
exactly as before the call. -/
theorem download_notFound_no_writes (st : St) (modName gv loader folder : String)
    (h : st.registry.searchHits modName = some []) :
    getmod st.registry modName gv loader = .error (.notFound modName) ∧
    download st modName gv loader folder = (some (.error (.notFound modName)), st) := by
  have hg : getmod st.registry modName gv loader = .error (.notFound modName) := by
    unfold getmod
    rw [h]
  refine ⟨hg, ?_⟩
  unfold download
  rw [hg]

/-- Claim C4: manifest round-trip — for every manifest state, after
`saveModInfo(name, v)` a `loadModsData()` maps `name` to `v`, and every other
mod name present before keeps its old value. -/
theorem saveModInfo_roundtrip (st : St) (modName version : String) :
    lookupEntry (loadModsData (saveModInfo st modName version)) modName = some version ∧
    (∀ n w, n ≠ modName → lookupEntry (loadModsData st) n = some w →
      lookupEntry (loadModsData (saveModInfo st modName version)) n = some w) := by
  constructor
  · show lookupEntry (setEntry (loadModsData st) modName version) modName = some version
    exact lookupEntry_setEntry_self _ _ _
  · intro n w hne hw
    show lookupEntry (setEntry (loadModsData st) modName version) n = some w
    rw [lookupEntry_setEntry_ne _ _ _ _ hne]
    exact hw

theorem saveModInfo_roundtrip_witness :
    lookupEntry (loadModsData (saveModInfo demoSt "jei" "2.0")) "jei" = some "2.0" ∧
    ("create" ≠ "jei") ∧
    lookupEntry (loadModsData demoSt) "create" = some "1.0.0" ∧
    lookupEntry (loadModsData (saveModInfo demoSt "jei" "2.0")) "create" = some "1.0.0" :=
  ⟨(saveModInfo_roundtrip demoSt "jei" "2.0").1, by decide, rfl,
    (saveModInfo_roundtrip demoSt "jei" "2.0").2 "create" "1.0.0" (by decide) rfl⟩

/-- Case analysis of `downloadMod` on a state whose staging directory exists:
every run either settles with an error, never settles (the mid-stream failure
leaves only the partial body staged), or settles having fully written the
artifact's declared filename into the staging directory. -/
theorem downloadMod_cases (st : St) (versionId : String) (d : Entries)
    (hd : st.downloadDir = some d) :
    (∃ (e : JsError) (st1 : St),
      downloadMod st versionId = (some (.error e), st1)) ∨
    (∃ (st1 : St) (vd : VersionData) (file : ArtifactFile)
       (frest : List ArtifactFile) (partialBody : String),
      downloadMod st versionId = (none, st1) ∧
      st.registry.versionData versionId = some vd ∧
      vd.files = file :: frest ∧
      st.registry.fetchUrl file.url = .interrupted partialBody ∧
      st1.downloadDir = some (setEntry d file.filename partialBody)) ∨
    (∃ (st1 : St) (vd : VersionData) (file : ArtifactFile)
       (frest : List ArtifactFile) (content : String),
      downloadMod st versionId = (some (.ok ()), st1) ∧
      st.registry.versionData versionId = some vd ∧
      vd.files = file :: frest ∧
      st.registry.fetchUrl file.url = .full content ∧
      st1.downloadDir = some (setEntry d file.filename content) ∧
      lookupEntry (setEntry d file.filename content) file.filename = some content) := by
  cases hv : st.registry.versionData versionId with
  | none => exact Or.inl ⟨.httpError, st, by simp only [downloadMod, hv]⟩
  | some vd =>
    cases hf : vd.files with
    | nil => exact Or.inl ⟨.typeError, st, by simp only [downloadMod, hv, hf]⟩
    | cons file frest =>
      cases hc : st.registry.fetchUrl file.url with
      | failed =>
        refine Or.inl ⟨.httpError,
          { st with
            downloadDir := some (setEntry d file.filename "")
            ops := st.ops ++ [.writeFile (downloadDirPath ++ "/" ++ file.filename)] }, ?_⟩
        simp only [downloadMod, hv, hf, hd, hc]
      | interrupted partialBody =>
        refine Or.inr (Or.inl ⟨
          { st with
            downloadDir := some (setEntry d file.filename partialBody)
            ops := st.ops ++ [.writeFile (downloadDirPath ++ "/" ++ file.filename)] },
          vd, file, frest, partialBody, ?_, rfl, hf, hc, rfl⟩)
        simp only [downloadMod, hv, hf, hd, hc]
      | full content =>
        refine Or.inr (Or.inr ⟨
          { st with
            downloadDir := some (setEntry d file.filename content)
            ops := st.ops ++ [.writeFile (downloadDirPath ++ "/" ++ file.filename)] },
          vd, file, frest, content, ?_, rfl, hf, hc, rfl,
          lookupEntry_setEntry_self _ _ _⟩)
        simp only [downloadMod, hv, hf, hd, hc]

/-- Counterexample to claim C6 as stated: with the staging directory present,
a version id whose artifact stream errors mid-body makes `downloadMod` return
`none` — the promise never settles, so the transfer neither completes nor
surfaces any error to the caller — and only the partial body `"JARB"` is left
staged under the artifact's declared filename. -/
theorem downloadMod_hangs_on_interrupted_stream :
    demoStInt.registry.fetchUrl "u1" = .interrupted "JARB" ∧
    (downloadMod (ensureDownloadDir demoStInt) "vid1").1 = none ∧
    lookupEntry (stagedFiles (downloadMod (ensureDownloadDir demoStInt) "vid1").2)
      "create.jar" = some "JARB" :=
  ⟨rfl, rfl, rfl⟩

/-- Claim C6, amended: inside `installMod` the staging directory exists before
the write (created when absent), and whenever the artifact download settles it
either completed fully — the file named by the artifact's declared filename is
in the staging directory with the whole fetched content — or failed with an
error surfaced to the caller; when the response stream errors mid-transfer the
promise never settles and only the partial body remains staged. -/
theorem installMod_transfer_atomic_settled (st : St) (versionId : String) :
    (ensureDownloadDir st).downloadDir.isSome = true ∧
    ((∃ (e : JsError) (st1 : St),
        downloadMod (ensureDownloadDir st) versionId = (some (.error e), st1)) ∨
     (∃ (st1 : St) (vd : VersionData) (file : ArtifactFile)
        (frest : List ArtifactFile) (partialBody : String) (d0 : Entries),
        downloadMod (ensureDownloadDir st) versionId = (none, st1) ∧
        (ensureDownloadDir st).registry.versionData versionId = some vd ∧
        vd.files = file :: frest ∧
        (ensureDownloadDir st).registry.fetchUrl file.url = .interrupted partialBody ∧
        (ensureDownloadDir st).downloadDir = some d0 ∧
        st1.downloadDir = some (setEntry d0 file.filename partialBody)) ∨
     (∃ (st1 : St) (vd : VersionData) (file : ArtifactFile)
        (frest : List ArtifactFile) (content : String) (d0 : Entries),
        downloadMod (ensureDownloadDir st) versionId = (some (.ok ()), st1) ∧
        (ensureDownloadDir st).registry.versionData versionId = some vd ∧
        vd.files = file :: frest ∧
        (ensureDownloadDir st).registry.fetchUrl file.url = .full content ∧
        (ensureDownloadDir st).downloadDir = some d0 ∧
        st1.downloadDir = some (setEntry d0 file.filename content) ∧
        lookupEntry (setEntry d0 file.filename content) file.filename = some content)) := by
  obtain ⟨d, hd⟩ := Option.isSome_iff_exists.mp (ensureDownloadDir_isSome st)
  refine ⟨ensureDownloadDir_isSome st, ?_⟩
  rcases downloadMod_cases (ensureDownloadDir st) versionId d hd with
    h | ⟨st1, vd, file, frest, partialBody, h1, h2, h3, h4, h5⟩ |
    ⟨st1, vd, file, frest, content, h1, h2, h3, h4, h5, h6⟩
  · exact Or.inl h
  · exact Or.inr (Or.inl ⟨st1, vd, file, frest, partialBody, d, h1, h2, h3, h4, hd, h5⟩)
  · exact Or.inr (Or.inr ⟨st1, vd, file, frest, content, d, h1, h2, h3, h4, hd, h5, h6⟩)

/-- Claim C7: when the rename into a non-writable mods folder makes the
install step fail, `download` propagates the install error and `saveModInfo`
is never reached — the manifest file is unchanged. -/
theorem download_install_fail_no_manifest (st st2 : St)
    (modName gv loader folder : String) (latest : ModVersion)
    (vrest : List ModVersion)
    (hw : st.targetWritable = false)
    (hget : getmod st.registry modName gv loader = .ok (latest :: vrest))
    (hdl : downloadMod (ensureDownloadDir st) latest.id = (some (.ok ()), st2)) :
    download st modName gv loader folder = (some (.error .installError), st2) ∧
    st2.manifestFile = st.manifestFile := by
  obtain ⟨g1, g2, _g3, g4, g5⟩ := downloadMod_frame _ _ _ _ hdl
  obtain ⟨e1, e2, _e3, e4, e5⟩ := ensureDownloadDir_frame st
  have hw2 : st2.targetWritable = false := by rw [g4, e4, hw]
  obtain ⟨d, file, content, _hd0, hdd⟩ := downloadMod_ok_downloadDir _ _ _ hdl
  have hstaged : stagedFiles st2 = setEntry d file.filename content := by
    simp [stagedFiles, hdd]
  have hmv : moveStaged st2 folder = (.error .installError, st2) := by
    unfold moveStaged
    rw [if_neg (by simp [hw2])]
    cases hse : setEntry d file.filename content with
    | nil => exact absurd hse (setEntry_ne_nil _ _ _)
    | cons a t => rw [hstaged, hse]
  have hinst : installMod st latest.id folder =
      (some (.error .installError), st2) := by
    unfold installMod
    rw [hdl]
    simp only [hmv]
  refine ⟨?_, by rw [g2, e2]⟩
  unfold download
  simp only [hget, hinst]

theorem download_install_fail_no_manifest_witness :
    demoStRO.targetWritable = false ∧
    getmod demoStRO.registry "create" "1.18.2" "forge" = .ok [demoVersion] ∧
    downloadMod (ensureDownloadDir demoStRO) demoVersion.id =
      (some (.ok ()), demoStDl) ∧
    download demoStRO "create" "1.18.2" "forge" "./mods" =
      (some (.error .installError), demoStDl) ∧
    demoStDl.manifestFile = demoStRO.manifestFile :=
  ⟨rfl, rfl, rfl,
    (download_install_fail_no_manifest demoStRO demoStDl "create" "1.18.2"
      "forge" "./mods" demoVersion [] rfl rfl rfl).1,
    (download_install_fail_no_manifest demoStRO demoStDl "create" "1.18.2"
      "forge" "./mods" demoVersion [] rfl rfl rfl).2⟩

/-- Claim C5: idempotence of `update` — if `update(folder, gameVersion)`
succeeds and the registry's responses are unchanged, a second call succeeds,
changes nothing, and performs zero file operations (the operation log is
exactly as the first call left it), because every manifest entry already
records the first filtered version's number.  The manifest is assumed
well-formed (unique keys), as any JSON object parse guarantees. -/
theorem update_idempotent (st st1 : St) (folder gv : String)
    (hnd : (manifestKeys st).Nodup)
    (h1 : update st folder gv = (some (.ok ()), st1)) :
    update st1 folder gv = (some (.ok ()), st1) ∧
    (update st1 folder gv).2.ops = st1.ops := by
  unfold update at h1 ⊢
  by_cases hlen : ((loadModsData st).length == 0) = true
  · rw [if_pos hlen] at h1
    cases h1
    rw [if_pos hlen]
    exact ⟨rfl, rfl⟩
  · rw [if_neg hlen] at h1
    have hent : ∀ p ∈ loadModsData st,
        lookupEntry (loadModsData st) p.1 = some p.2 := fun p hp =>
      lookupEntry_eq_some_of_mem _ _ _ hnd (by simpa using hp)
    obtain ⟨hreg, hkeys, hb, hc⟩ :=
      updateLoop_ok_manifest (loadModsData st) st st1 folder gv h1 hnd hent
    have hlenEq : (loadModsData st1).length = (loadModsData st).length := by
      have h' := congrArg List.length hkeys
      simpa using h'
    have hlen1 : ¬(((loadModsData st1).length == 0) = true) := by
      intro hcon
      apply hlen
      rwa [hlenEq] at hcon
    have hnd1 : ((loadModsData st1).map Prod.fst).Nodup := by
      rw [hkeys]
      exact hnd
    have hres : ∀ p ∈ loadModsData st1,
        resolvedVn st1.registry gv p.1 = some p.2 := by
      intro q hq
      have hq1 : q.1 ∈ (loadModsData st).map Prod.fst := by
        rw [← hkeys]
        exact List.mem_map.mpr ⟨q, hq, rfl⟩
      have hlq : lookupEntry (loadModsData st1) q.1 = some q.2 :=
        lookupEntry_eq_some_of_mem _ _ _ hnd1 (by simpa using hq)
      rw [hreg]
      exact (hb q.1 hq1).symm.trans hlq
    have hnoop := updateLoop_noop (loadModsData st1) st1 folder gv hres
    rw [if_neg hlen1, hnoop]
    exact ⟨rfl, rfl⟩

theorem update_idempotent_witness :
    (manifestKeys demoSt).Nodup ∧
    update demoSt "./mods" "1.18.2" = (some (.ok ()), demoSt) ∧
    (update demoSt "./mods" "1.18.2" = (some (.ok ()), demoSt) ∧
     (update demoSt "./mods" "1.18.2").2.ops = demoSt.ops) :=
  ⟨by decide, rfl,
    (update_idempotent demoSt demoSt "./mods" "1.18.2" (by decide) rfl).1,
    (update_idempotent demoSt demoSt "./mods" "1.18.2" (by decide) rfl).2⟩

/-- Claim C10: no operation of the class removes a manifest entry —
`deleteOldMod` leaves the manifest file unchanged and deletes at most the
installed file named by the manifest key, `saveModInfo` only adds or
overwrites entries, and over every sequence of public mutating calls the
manifest's key set never shrinks. -/
theorem manifest_never_shrinks :
    (∀ st modName folder,
      (deleteOldMod st modName folder).manifestFile = st.manifestFile ∧
      ((deleteOldMod st modName folder).modsFolder = st.modsFolder ∨
       (deleteOldMod st modName folder).modsFolder =
         st.modsFolder.filter (fun f => !(f.1 == modName)))) ∧
    (∀ st modName version,
      lookupEntry (loadModsData (saveModInfo st modName version)) modName = some version ∧
      ∀ n, n ≠ modName →
        lookupEntry (loadModsData (saveModInfo st modName version)) n =
          lookupEntry (loadModsData st) n) ∧
    (∀ st ops n, n ∈ manifestKeys st → n ∈ manifestKeys (run st ops)) := by
  refine ⟨?_, ?_, ?_⟩
  · intro st modName folder
    refine ⟨(deleteOldMod_frame st modName folder).2.1, ?_⟩
    unfold deleteOldMod
    cases hfind : ((loadModsData st).map Prod.fst).find? (fun key => key == modName) with
    | none => exact Or.inl rfl
    | some k =>
      have hbeq := List.find?_some hfind
      simp only [beq_iff_eq] at hbeq
      subst hbeq
      simp only [hfind]
      by_cases hc : (st.modsFolder.map Prod.fst).contains k = true
      · rw [if_pos hc]
        exact Or.inr rfl
      · rw [if_neg hc]
        exact Or.inl rfl
  · intro st modName version
    refine ⟨?_, ?_⟩
    · show lookupEntry (setEntry (loadModsData st) modName version) modName = some version
      exact lookupEntry_setEntry_self _ _ _
    · intro n hne
      show lookupEntry (setEntry (loadModsData st) modName version) n = _
      exact lookupEntry_setEntry_ne _ _ _ _ hne
  · intro st ops n h
    exact run_keys_mono ops st n h

theorem manifest_never_shrinks_witness :
    (deleteOldMod demoSt "create" "./mods").manifestFile = demoSt.manifestFile ∧
    lookupEntry (loadModsData (saveModInfo demoSt "jei" "2.0")) "create" =
      lookupEntry (loadModsData demoSt) "create" ∧
    ("create" ∈ manifestKeys demoSt ∧
     "create" ∈ manifestKeys (run demoSt
       [.opSaveModInfo "jei" "2.0", .opDeleteOldMod "create" "./mods",
        .opUpdate "./mods" "1.18.2"])) :=
  ⟨(manifest_never_shrinks.1 demoSt "create" "./mods").1,
   (manifest_never_shrinks.2.1 demoSt "jei" "2.0").2 "create" (by decide),
   by decide,
   manifest_never_shrinks.2.2 demoSt
     [.opSaveModInfo "jei" "2.0", .opDeleteOldMod "create" "./mods",
      .opUpdate "./mods" "1.18.2"] "create" (by decide)⟩

theorem download_notFound_no_writes_witness :
    demoSt.registry.searchHits "totallyMissingMod123" = some [] ∧
    getmod demoSt.registry "totallyMissingMod123" "1.18.2" "forge" =
      .error (.notFound "totallyMissingMod123") ∧
    download demoSt "totallyMissingMod123" "1.18.2" "forge" "./mods" =
      (some (.error (.notFound "totallyMissingMod123")), demoSt) :=
  ⟨rfl,
    (download_notFound_no_writes demoSt "totallyMissingMod123" "1.18.2" "forge"
      "./mods" rfl).1,
    (download_notFound_no_writes demoSt "totallyMissingMod123" "1.18.2" "forge"
      "./mods" rfl).2⟩

end ModrinthLib
